import Mathlib

/-!
Verification of the clip-selection and media-merge pipelines of the
AI-clip-backend repository, against its natural-language specification.

The JavaScript sources are shallowly embedded: JS numbers are modelled as
rationals (ℚ), JS strings as String, fallible code as Except, and the
side-effecting merge job as a straight-line function that also returns the
ordered list of filesystem/network events it performs.  Each embedded
definition cites the source file and line range it is translated from.
-/

/-! ## Generic helpers -/

/-- First element of a list satisfying a decidable predicate.  Models
JavaScript `Array.prototype.find`. -/
def findFirst {α : Type} (p : α → Prop) [DecidablePred p] : List α → Option α
  | [] => none
  | c :: cs => if p c then some c else findFirst p cs

instance {ε α : Type} [DecidableEq ε] [DecidableEq α] : DecidableEq (Except ε α) :=
  fun a b =>
    match a, b with
    | .ok x, .ok y => if h : x = y then .isTrue (by rw [h]) else .isFalse (by simp [h])
    | .error x, .error y => if h : x = y then .isTrue (by rw [h]) else .isFalse (by simp [h])
    | .ok _, .error _ => .isFalse (by simp)
    | .error _, .ok _ => .isFalse (by simp)

theorem findFirst_eq_none {α : Type} (p : α → Prop) [DecidablePred p] :
    ∀ l, findFirst p l = none ↔ ∀ c ∈ l, ¬ p c := by
  intro l
  induction l with
  | nil => simp [findFirst]
  | cons c cs ih =>
    by_cases h : p c <;> simp [findFirst, h, ih]

/-! ## TokenBudgeter — src/unnamed/part_005, lines 16–60 -/

/-- Token counting function (`countTokens`, part_005 lines 17–19):
`Math.ceil(text.length / 4)`. -/
def countTokens (text : String) : ℕ :=
  (text.length + 3) / 4

/-- Loop body of `createTokenAwareChunks` (part_005 lines 25–57).  The three
mutable variables `chunks`, `currentChunk`, `currentChunkTokens` of the JS
loop are threaded explicitly; `tokensOf` is the per-segment token cost
(`countTokens(JSON.stringify(transcript, null, 2))`).  `effectiveMaxTokens`
is an integer since `maxTokensPerChunk - reservedTokens` can be negative. -/
def chunksGo {α : Type} (tokensOf : α → ℕ) (effectiveMaxTokens : ℤ) :
    List α → List α → ℕ → List (List α)
  | [], currentChunk, _ =>
      if currentChunk.isEmpty then [] else [currentChunk]
  | t :: ts, currentChunk, currentChunkTokens =>
      let transcriptTokens := tokensOf t
      if (transcriptTokens : ℤ) > effectiveMaxTokens then
        (if currentChunk.isEmpty then [] else [currentChunk]) ++
          [t] :: chunksGo tokensOf effectiveMaxTokens ts [] 0
      else if ((currentChunkTokens : ℤ) + (transcriptTokens : ℤ) > effectiveMaxTokens)
          ∧ currentChunk.isEmpty = false then
        currentChunk :: chunksGo tokensOf effectiveMaxTokens ts [t] transcriptTokens
      else
        chunksGo tokensOf effectiveMaxTokens ts (currentChunk ++ [t])
          (currentChunkTokens + transcriptTokens)

/-- `createTokenAwareChunks(transcripts, maxTokensPerChunk)` (part_005 lines
22–60).  `serialize` stands for `JSON.stringify(·, null, 2)`; the reserved
headroom of 5000 tokens is subtracted up front. -/
def createTokenAwareChunks {α : Type} (serialize : α → String) (transcripts : List α)
    (maxTokensPerChunk : ℕ) : List (List α) :=
  let reservedTokens : ℕ := 5000
  let effectiveMaxTokens : ℤ := (maxTokensPerChunk : ℤ) - (reservedTokens : ℤ)
  chunksGo (fun t => countTokens (serialize t)) effectiveMaxTokens transcripts [] 0

theorem chunksGo_flatten {α : Type} (tokensOf : α → ℕ) (effMax : ℤ) :
    ∀ (ts cur : List α) (curTok : ℕ),
      (chunksGo tokensOf effMax ts cur curTok).flatten = cur ++ ts := by
  intro ts
  induction ts with
  | nil =>
    intro cur curTok
    cases hE : cur.isEmpty
    · simp [chunksGo, hE]
    · simp [chunksGo, hE, List.isEmpty_iff.mp hE]
  | cons t ts ih =>
    intro cur curTok
    simp only [chunksGo]
    split
    · cases hE : cur.isEmpty
      · simp [hE, ih]
      · simp [hE, ih, List.isEmpty_iff.mp hE]
    · split
      · simp [ih]
      · simp [ih]

theorem chunksGo_oversize {α : Type} (tokensOf : α → ℕ) (effMax : ℤ) :
    ∀ (ts cur : List α) (curTok : ℕ),
      (∀ s ∈ cur, (tokensOf s : ℤ) ≤ effMax) →
      ∀ c ∈ chunksGo tokensOf effMax ts cur curTok,
        ∀ s ∈ c, (tokensOf s : ℤ) > effMax → c = [s] := by
  intro ts
  induction ts with
  | nil =>
    intro cur curTok hcur c hc s hs hbig
    cases hE : cur.isEmpty
    · simp only [chunksGo, hE] at hc
      simp at hc
      subst hc
      exact absurd (hcur s hs) (not_le.mpr hbig)
    · simp [chunksGo, hE] at hc
  | cons t ts ih =>
    intro cur curTok hcur c hc s hs hbig
    simp only [chunksGo] at hc
    split at hc
    · rcases List.mem_append.mp hc with hc1 | hc2
      · cases hE : cur.isEmpty
        · simp only [hE] at hc1
          simp at hc1
          subst hc1
          exact absurd (hcur s hs) (not_le.mpr hbig)
        · simp [hE] at hc1
      · rcases List.mem_cons.mp hc2 with hc3 | hc4
        · subst hc3
          simp only [List.mem_singleton] at hs
          subst hs
          rfl
        · exact ih [] 0 (by simp) c hc4 s hs hbig
    · split at hc
      · rename_i hnotover hcond
        rcases List.mem_cons.mp hc with hc1 | hc2
        · subst hc1
          exact absurd (hcur s hs) (not_le.mpr hbig)
        · refine ih [t] (tokensOf t) ?_ c hc2 s hs hbig
          intro x hx
          simp only [List.mem_singleton] at hx
          subst hx
          exact not_lt.mp hnotover
      · rename_i hnotover _
        refine ih (cur ++ [t]) (curTok + tokensOf t) ?_ c hc s hs hbig
        intro x hx
        rcases List.mem_append.mp hx with hx1 | hx2
        · exact hcur x hx1
        · simp only [List.mem_singleton] at hx2
          subst hx2
          exact not_lt.mp hnotover

/-- C1: for every finite sequence of transcript segments and every token
ceiling, concatenating in order the chunks produced by
`createTokenAwareChunks` yields exactly the original input sequence — same
segments, same order, nothing dropped or duplicated — and a segment whose
own token cost exceeds the effective ceiling appears alone in its own
chunk. -/
theorem c1_tokenBudgeter_preserves_segments {α : Type} (serialize : α → String)
    (transcripts : List α) (maxTokensPerChunk : ℕ) :
    (createTokenAwareChunks serialize transcripts maxTokensPerChunk).flatten = transcripts ∧
    ∀ c ∈ createTokenAwareChunks serialize transcripts maxTokensPerChunk,
      ∀ s ∈ c,
        ((countTokens (serialize s) : ℤ) > (maxTokensPerChunk : ℤ) - 5000 → c = [s]) := by
  constructor
  · exact chunksGo_flatten _ _ transcripts [] 0
  · intro c hc s hs hbig
    exact chunksGo_oversize _ _ transcripts [] 0 (by simp) c hc s hs hbig

theorem c1_tokenBudgeter_preserves_segments_witness :
    (createTokenAwareChunks (fun s : String => s) ["aaaaaaaaaaaaaaaaaaaaaaaa"] 5004).flatten
        = ["aaaaaaaaaaaaaaaaaaaaaaaa"] ∧
    (["aaaaaaaaaaaaaaaaaaaaaaaa"] : List String) = ["aaaaaaaaaaaaaaaaaaaaaaaa"] := by
  have h := c1_tokenBudgeter_preserves_segments (fun s : String => s)
    ["aaaaaaaaaaaaaaaaaaaaaaaa"] 5004
  have hchunks : createTokenAwareChunks (fun s : String => s)
      ["aaaaaaaaaaaaaaaaaaaaaaaa"] 5004 = [["aaaaaaaaaaaaaaaaaaaaaaaa"]] := by decide
  refine ⟨h.1, h.2 ["aaaaaaaaaaaaaaaaaaaaaaaa"] ?_ "aaaaaaaaaaaaaaaaaaaaaaaa" (by simp) ?_⟩
  · rw [hchunks]; simp
  · decide

/-! ## GenerationClient — src/unnamed/part_005, lines 62–89 -/

/-- Outcome of one call to the text-generation service, as observed by the
try/catch of `callOpenAIWithRetry` (part_005 lines 66–89).  A rate-limit
error (`error.code === 'rate_limit_exceeded'`) may carry the
service-advertised delay parsed from the `retry-after-ms` header. -/
inductive CallOutcome
  | success
  | rateLimited (retryAfterMs : Option ℕ)
  | otherError
deriving DecidableEq

/-- Result propagated to the caller of `callOpenAIWithRetry`: the successful
response, or the error re-thrown by the catch block. -/
inductive RetryResult
  | ok
  | errRateLimited (retryAfterMs : Option ℕ)
  | errOther
deriving DecidableEq

/-- One round of the `while (retries <= maxRetries)` loop of
`callOpenAIWithRetry` (part_005 lines 67–88).  `callIdx` is the current
value of the JS `retries` counter, which is also the index of the call about
to be made; `remaining = maxRetries - retries`, so `remaining > 0` is
exactly the loop's `retries < maxRetries` test.  Returns the propagated
result, the total number of service calls made, and the ordered list of
back-off sleeps (in milliseconds) performed. -/
def retryGo (outcomes : ℕ → CallOutcome) : ℕ → ℕ → RetryResult × ℕ × List ℕ
  | callIdx, remaining =>
    match outcomes callIdx with
    | .success => (.ok, callIdx + 1, [])
    | .otherError => (.errOther, callIdx + 1, [])
    | .rateLimited r =>
      match remaining with
      | 0 => (.errRateLimited r, callIdx + 1, [])
      | remaining + 1 =>
        let retryAfterMs := r.getD (2 ^ callIdx * 1000)
        let rest := retryGo outcomes (callIdx + 1) remaining
        (rest.1, rest.2.1, retryAfterMs :: rest.2.2)

/-- `callOpenAIWithRetry(messages, model, temperature, maxRetries)`
(part_005 lines 66–89), abstracted over the sequence of service-call
outcomes: `outcomes i` is what the `i`-th `openai.chat.completions.create`
call does.  Every call site in the repository uses the default
`maxRetries = 3`. -/
def callOpenAIWithRetry (outcomes : ℕ → CallOutcome) (maxRetries : ℕ) :
    RetryResult × ℕ × List ℕ :=
  retryGo outcomes 0 maxRetries

/-- Sleep performed after rate-limited call `i`: the advertised
`retry-after-ms` value when present, else `Math.pow(2, retries) * 1000`. -/
def backoffDelay (o : CallOutcome) (i : ℕ) : ℕ :=
  match o with
  | .rateLimited r => r.getD (2 ^ i * 1000)
  | _ => 0

/-- Result propagated when the loop stops at a call with the given
outcome. -/
def stopResult (o : CallOutcome) : RetryResult :=
  match o with
  | .success => .ok
  | .rateLimited r => .errRateLimited r
  | .otherError => .errOther

/-- Holds exactly of rate-limit outcomes. -/
def isRateLimited : CallOutcome → Prop
  | .rateLimited _ => True
  | _ => False

instance : DecidablePred isRateLimited := by
  intro o
  cases o <;> simp only [isRateLimited] <;> infer_instance

theorem retryGo_spec (outcomes : ℕ → CallOutcome) :
    ∀ (remaining callIdx : ℕ),
      (callIdx + 1 ≤ (retryGo outcomes callIdx remaining).2.1 ∧
        (retryGo outcomes callIdx remaining).2.1 ≤ callIdx + remaining + 1) ∧
      (∀ i, callIdx ≤ i → i + 1 < (retryGo outcomes callIdx remaining).2.1 →
        isRateLimited (outcomes i)) ∧
      (retryGo outcomes callIdx remaining).2.2 =
        (List.range ((retryGo outcomes callIdx remaining).2.1 - 1 - callIdx)).map
          (fun k => backoffDelay (outcomes (callIdx + k)) (callIdx + k)) ∧
      (retryGo outcomes callIdx remaining).1 =
        stopResult (outcomes ((retryGo outcomes callIdx remaining).2.1 - 1)) := by
  intro remaining
  induction remaining with
  | zero =>
    intro callIdx
    rcases ho : outcomes callIdx with _ | r | _ <;>
      rw [retryGo] <;> simp [ho, stopResult] <;> omega
  | succ remaining ih =>
    intro callIdx
    rcases ho : outcomes callIdx with _ | r | _
    · rw [retryGo]
      simp [ho, stopResult]
      omega
    · obtain ⟨⟨hlo, hhi⟩, hrl, hsleeps, hres⟩ := ih (callIdx + 1)
      rw [retryGo]
      simp only [ho]
      refine ⟨⟨by omega, by omega⟩, ?_, ?_, ?_⟩
      · intro i hle hlt
        rcases Nat.eq_or_lt_of_le hle with h1 | h1
        · subst h1
          simp [ho, isRateLimited]
        · exact hrl i h1 hlt
      · have hn : (retryGo outcomes (callIdx + 1) remaining).2.1 - 1 - callIdx =
            ((retryGo outcomes (callIdx + 1) remaining).2.1 - 1 - (callIdx + 1)) + 1 := by
          omega
        rw [hn, List.range_succ_eq_map, List.map_cons, List.map_map]
        refine congrArg₂ _ ?_ ?_
        · simp [backoffDelay, ho]
        · rw [hsleeps]
          refine List.map_congr_left ?_
          intro k _
          simp only [Function.comp]
          have : callIdx + (k + 1) = callIdx + 1 + k := by omega
          rw [this]
      · exact hres
    · rw [retryGo]
      simp [ho, stopResult]
      omega

theorem c4_attempt_cap_counterexample :
    (callOpenAIWithRetry (fun _ => .rateLimited none) 3).2.1 = 4 ∧
    ¬ (callOpenAIWithRetry (fun _ => .rateLimited none) 3).2.1 ≤ 3 ∧
    (callOpenAIWithRetry (fun _ => .rateLimited none) 3).2.2 = [1000, 2000, 4000] ∧
    (callOpenAIWithRetry (fun _ => .rateLimited none) 3).1 = .errRateLimited none := by
  decide

/-- C4 amended: for every generation-service call with the default
`maxRetries = 3`, on a rate-limit error the client sleeps for the
service-advertised retry delay if present, otherwise backs off
exponentially starting at 1 second and doubling per attempt; total
attempts are capped at 4 (the initial call plus up to 3 retries); on
exhaustion the rate-limit error propagates to the caller; and every
non-rate-limit outcome stops the loop immediately, its error propagating
without any retry. -/
theorem c4_retry_policy (outcomes : ℕ → CallOutcome) :
    (1 ≤ (callOpenAIWithRetry outcomes 3).2.1 ∧
      (callOpenAIWithRetry outcomes 3).2.1 ≤ 4) ∧
    (∀ i, i + 1 < (callOpenAIWithRetry outcomes 3).2.1 → isRateLimited (outcomes i)) ∧
    (callOpenAIWithRetry outcomes 3).2.2 =
      (List.range ((callOpenAIWithRetry outcomes 3).2.1 - 1)).map
        (fun k => backoffDelay (outcomes k) k) ∧
    (callOpenAIWithRetry outcomes 3).1 =
      stopResult (outcomes ((callOpenAIWithRetry outcomes 3).2.1 - 1)) := by
  obtain ⟨⟨h1, h2⟩, hrl, hsleeps, hres⟩ := retryGo_spec outcomes 3 0
  simp only [callOpenAIWithRetry]
  exact ⟨⟨h1, by omega⟩, fun i hi => hrl i (Nat.zero_le i) hi, by simpa using hsleeps, hres⟩

/-- Concrete outcome sequence used by the C4 witness: the first call is
rate-limited with an advertised 500 ms delay, the second succeeds. -/
def c4WitnessOutcomes : ℕ → CallOutcome :=
  fun i => if i = 0 then .rateLimited (some 500) else .success

theorem c4_retry_policy_witness : isRateLimited (c4WitnessOutcomes 0) :=
  (c4_retry_policy c4WitnessOutcomes).2.1 0 (by decide)

/-! ## ClipValidator — src/unnamed/part_005, lines 91–121 (chunked pipeline)
and lines 415–439 (single-shot controller) -/

/-- Candidate clip as handled by the selection-side validators.  Times are
JS numbers, modelled as rationals; both validators read them through
`parseFloat`, which is the identity on the numeric values concerned here. -/
structure Clip where
  videoId : String
  transcriptText : String
  startTime : ℚ
  endTime : ℚ
deriving DecidableEq

/-- Typed rendering of the error messages thrown by the validators. -/
inductive ValidationError
  | emptyClips
  | durationMismatch (videoId : String)
  | notFromEndPart (videoId : String)
deriving DecidableEq

/-- First clip violating the explicit-duration tolerance
(`clips.find(...)`, part_005 lines 98–100). -/
def durationBad (clips : List Clip) (d : ℚ) : Option Clip :=
  findFirst (fun c => (0.05 : ℚ) < |c.endTime - c.startTime - d|) clips

/-- First clip starting before the 80 % mark
(`clips.find(...)`, part_005 line 112). -/
def endPartBad (clips : List Clip) (videoDuration : ℚ) : Option Clip :=
  findFirst (fun c => c.startTime < videoDuration * (0.8 : ℚ)) clips

/-- `validateClips(clips, videoDuration, explicitDuration, isEndPart)`
(part_005 lines 92–121): empty check, then explicit-duration check, then
end-part check; the first failure wins.  Note there is no bounds check on
`startTime`/`endTime` in this validator. -/
def validateClips (clips : List Clip) (videoDuration : ℚ) (explicitDuration : Option ℚ)
    (isEndPart : Bool) : Except ValidationError Unit :=
  if clips = [] then .error .emptyClips
  else
    match (match explicitDuration with
           | some d => durationBad clips d
           | none => none) with
    | some bad => .error (.durationMismatch bad.videoId)
    | none =>
      if isEndPart then
        match endPartBad clips videoDuration with
        | some bad => .error (.notFromEndPart bad.videoId)
        | none => .ok ()
      else .ok ()

/-- Numeric value of the decimal string produced by
`Number.prototype.toFixed(2)`: the argument rounded to two decimal places,
ties rounded away from zero (the ECMAScript `toFixed` algorithm extracts
the sign first and picks the larger candidate integer for the magnitude). -/
def round2 (q : ℚ) : ℚ :=
  if q < 0 then -((Int.floor ((-q) * 100 + 1/2) : ℚ) / 100)
  else (Int.floor (q * 100 + 1/2) : ℚ) / 100

/-- Clip as stored back by the bounds branch of the single-shot
controller's `validate` (part_005 lines 423–430): when a time is out of
bounds, both times are clamped into `[0, videoDuration]` and written back
through `toFixed(2)` (hence `round2`); otherwise the clip is untouched. -/
def clampClip (videoDuration : ℚ) (c : Clip) : Clip :=
  if c.startTime < 0 ∨ c.endTime > videoDuration then
    { c with
      startTime := round2 (if c.startTime < 0 then 0 else c.startTime),
      endTime := round2 (if c.endTime > videoDuration then videoDuration else c.endTime) }
  else c

/-- Duration computed at part_005 line 432 from the clamped local
`startTime`/`endTime` variables (before the `toFixed` write-back). -/
def clampedDuration (videoDuration : ℚ) (c : Clip) : ℚ :=
  (if c.endTime > videoDuration then videoDuration else c.endTime) -
    (if c.startTime < 0 then 0 else c.startTime)

/-- Body of the `clips.forEach` of the single-shot controller's `validate`
(part_005 lines 418–438): clamp out-of-bounds times instead of rejecting,
then check the explicit-duration tolerance on the clamped values. -/
def validateOne (videoDuration : ℚ) (explicitDuration : Option ℚ) (c : Clip) :
    Except ValidationError Clip :=
  match explicitDuration with
  | some d =>
      if |clampedDuration videoDuration c - d| > (0.05 : ℚ) then
        .error (.durationMismatch c.videoId)
      else .ok (clampClip videoDuration c)
  | none => .ok (clampClip videoDuration c)

/-- Sequential traversal of the clips array performed by the `forEach` in
`validate`: the first thrown error aborts; otherwise the (possibly
clamped-in-place) clips result. -/
def validateEach (videoDuration : ℚ) (explicitDuration : Option ℚ) :
    List Clip → Except ValidationError (List Clip)
  | [] => .ok []
  | c :: cs =>
    match validateOne videoDuration explicitDuration c with
    | .error e => .error e
    | .ok c1 =>
      match validateEach videoDuration explicitDuration cs with
      | .error e => .error e
      | .ok rest => .ok (c1 :: rest)

/-- `validate(clips)` of the single-shot controller (part_005 lines
415–439): empty check, then the per-clip clamp-and-check pass. -/
def validate (clips : List Clip) (videoDuration : ℚ) (explicitDuration : Option ℚ) :
    Except ValidationError (List Clip) :=
  if clips = [] then .error .emptyClips
  else validateEach videoDuration explicitDuration clips

theorem round2_nonneg {q : ℚ} (h : 0 ≤ q) : 0 ≤ round2 q := by
  rw [round2, if_neg (not_lt.mpr h)]
  have : (0 : ℤ) ≤ Int.floor (q * 100 + 1/2) := by
    apply Int.floor_nonneg.mpr
    positivity
  positivity

theorem round2_le_round2 {a b : ℚ} (h : a ≤ b) : round2 a ≤ round2 b := by
  rcases lt_or_le a 0 with ha | ha
  · rcases lt_or_le b 0 with hb | hb
    · rw [round2, if_pos ha, round2, if_pos hb]
      have hfl : Int.floor ((-b) * 100 + 1/2) ≤ Int.floor ((-a) * 100 + 1/2) := by
        apply Int.floor_le_floor
        nlinarith
      have : (Int.floor ((-b) * 100 + 1/2) : ℚ) ≤ (Int.floor ((-a) * 100 + 1/2) : ℚ) := by
        exact_mod_cast hfl
      linarith
    · calc round2 a ≤ 0 := by
            rw [round2, if_pos ha]
            have : (0 : ℤ) ≤ Int.floor ((-a) * 100 + 1/2) := by
              apply Int.floor_nonneg.mpr
              nlinarith
            have : (0 : ℚ) ≤ (Int.floor ((-a) * 100 + 1/2) : ℚ) := by exact_mod_cast this
            linarith
        _ ≤ round2 b := round2_nonneg hb
  · rw [round2, if_neg (not_lt.mpr ha), round2, if_neg (not_lt.mpr (le_trans ha h))]
    have hfl : Int.floor (a * 100 + 1/2) ≤ Int.floor (b * 100 + 1/2) := by
      apply Int.floor_le_floor
      nlinarith
    have : (Int.floor (a * 100 + 1/2) : ℚ) ≤ (Int.floor (b * 100 + 1/2) : ℚ) := by
      exact_mod_cast hfl
    linarith

theorem round2_of_hundredth (n : ℤ) : round2 ((n : ℚ) / 100) = (n : ℚ) / 100 := by
  have hhalf : Int.floor ((1 : ℚ)/2) = 0 := by
    rw [Int.floor_eq_iff] <;> norm_num
  rcases lt_or_le ((n : ℚ) / 100) 0 with h | h
  · rw [round2, if_pos h]
    have harg : (-((n : ℚ) / 100)) * 100 + 1/2 = ((-n : ℤ) : ℚ) + 1/2 := by
      push_cast
      ring
    rw [harg, Int.floor_int_add, hhalf]
    push_cast
    ring
  · rw [round2, if_neg (not_lt.mpr h)]
    have harg : ((n : ℚ) / 100) * 100 + 1/2 = ((n : ℤ) : ℚ) + 1/2 := by
      push_cast
      ring
    rw [harg, Int.floor_int_add, hhalf]
    push_cast
    ring

theorem clampClip_bounds {videoDuration : ℚ} {n : ℤ} (hn : videoDuration = (n : ℚ) / 100)
    (c : Clip) :
    0 ≤ (clampClip videoDuration c).startTime ∧
      (clampClip videoDuration c).endTime ≤ videoDuration := by
  unfold clampClip
  by_cases hoob : c.startTime < 0 ∨ c.endTime > videoDuration
  · rw [if_pos hoob]
    constructor
    · apply round2_nonneg
      split
      · exact le_refl 0
      · rename_i hns
        exact le_of_not_lt hns
    · have hle : (if c.endTime > videoDuration then videoDuration else c.endTime)
          ≤ videoDuration := by
        split
        · exact le_refl _
        · rename_i hne
          exact le_of_not_lt hne
      calc round2 (if c.endTime > videoDuration then videoDuration else c.endTime)
          ≤ round2 videoDuration := round2_le_round2 hle
        _ = videoDuration := by rw [hn, round2_of_hundredth]
  · rw [if_neg hoob]
    push_neg at hoob
    exact ⟨hoob.1, hoob.2⟩

theorem validateOne_ok_eq {videoDuration : ℚ} {explicitDuration : Option ℚ} {a c : Clip}
    (h : validateOne videoDuration explicitDuration a = .ok c) :
    c = clampClip videoDuration a := by
  rcases explicitDuration with _ | d
  · unfold validateOne at h
    injection h with h
    exact h.symm
  · unfold validateOne at h
    dsimp only at h
    split at h
    · exact absurd h (by simp)
    · injection h with h
      exact h.symm

theorem validateEach_ok_mem {videoDuration : ℚ} {explicitDuration : Option ℚ} :
    ∀ {l out : List Clip}, validateEach videoDuration explicitDuration l = .ok out →
      ∀ c ∈ out, ∃ a, validateOne videoDuration explicitDuration a = .ok c := by
  intro l
  induction l with
  | nil =>
    intro out h c hc
    rw [validateEach] at h
    injection h with h
    subst h
    simp at hc
  | cons a as ih =>
    intro out h c hc
    rw [validateEach] at h
    split at h
    · exact absurd h (by simp)
    · rename_i c1 hc1
      split at h
      · exact absurd h (by simp)
      · rename_i rest hrest
        injection h with h
        subst h
        rcases List.mem_cons.mp hc with h1 | h2
        · exact ⟨a, h1 ▸ hc1⟩
        · exact ih hrest c h2

theorem validateEach_none_eq (videoDuration : ℚ) :
    ∀ l : List Clip, validateEach videoDuration none l =
      .ok (l.map (clampClip videoDuration)) := by
  intro l
  induction l with
  | nil => rfl
  | cons a as ih =>
    rw [validateEach, ih]
    simp [validateOne]

theorem c5_endPart_counterexample :
    validateClips [⟨"v1", "text", 85, 96⟩] 100 none true = .ok () := by
  norm_num [validateClips, endPartBad, findFirst]

/-- C5 amended: with `requireFromEnd = true` and `sourceDuration = 100` the
validator accepts a clip with `startTime = 85` (85 is at or above the 80
threshold) as well as one with `startTime = 81`, and rejects one starting
below the threshold such as `startTime = 75`; in general every clip of a
list passing validation satisfies `startTime ≥ 0.8 × sourceDuration`. -/
theorem c5_endPart_threshold :
    (validateClips [⟨"v1", "a", 81, 92⟩] 100 none true = .ok ()) ∧
    (validateClips [⟨"v2", "b", 75, 86⟩] 100 none true
        = .error (.notFromEndPart "v2")) ∧
    ∀ (clips : List Clip) (videoDuration : ℚ) (explicitDuration : Option ℚ),
      validateClips clips videoDuration explicitDuration true = .ok () →
      ∀ c ∈ clips, videoDuration * (0.8 : ℚ) ≤ c.startTime := by
  refine ⟨by norm_num [validateClips, endPartBad, findFirst],
          by norm_num [validateClips, endPartBad, findFirst], ?_⟩
  intro clips videoDuration explicitDuration h c hc
  by_contra hlt
  push_neg at hlt
  rcases hfe : endPartBad clips videoDuration with _ | bad
  · rw [endPartBad, findFirst_eq_none] at hfe
    exact (hfe c hc) hlt
  · unfold validateClips at h
    split at h
    · exact absurd h (by simp)
    · split at h
      · exact absurd h (by simp)
      · rw [if_pos rfl, hfe] at h
        exact absurd h (by simp)

theorem c5_endPart_threshold_witness :
    (100 : ℚ) * (0.8 : ℚ) ≤ (Clip.mk "v3" "c" 85 96).startTime := by
  exact c5_endPart_threshold.2.2 [⟨"v3", "c", 85, 96⟩] 100 none
    (by norm_num [validateClips, endPartBad, findFirst]) ⟨"v3", "c", 85, 96⟩ (by simp)

theorem c6_no_clamping_counterexample :
    validateClips [⟨"v1", "text", -5, 700⟩] 600 none false = .ok () ∧
    ¬ (0 ≤ (Clip.mk "v1" "text" (-5) 700).startTime) ∧
    ¬ ((Clip.mk "v1" "text" (-5) 700).endTime ≤ 600) := by
  refine ⟨by norm_num [validateClips], by norm_num, by norm_num⟩

/-- C6 amended: the single-shot controller's `validate` clamps out-of-bounds
times rather than rejecting them — after it succeeds (for a source duration
expressible in hundredths) every returned clip satisfies `startTime ≥ 0`
and `endTime ≤ sourceDuration`, and with no explicit duration it raises no
error at all on a nonempty list, returning the clamped clips.  The chunked
pipeline's `validateClips`, by contrast, performs no bounds check: with no
explicit duration and no end-part requirement it accepts any nonempty clip
list unchanged, including clips far out of bounds. -/
theorem c6_clamp_only_in_controller :
    (∀ (clips out : List Clip) (videoDuration : ℚ) (explicitDuration : Option ℚ) (n : ℤ),
      videoDuration = (n : ℚ) / 100 →
      validate clips videoDuration explicitDuration = .ok out →
      ∀ c ∈ out, 0 ≤ c.startTime ∧ c.endTime ≤ videoDuration) ∧
    (∀ (clips : List Clip) (videoDuration : ℚ), clips ≠ [] →
      validate clips videoDuration none = .ok (clips.map (clampClip videoDuration))) ∧
    (∀ (clips : List Clip) (videoDuration : ℚ), clips ≠ [] →
      validateClips clips videoDuration none false = .ok ()) := by
  refine ⟨?_, ?_, ?_⟩
  · intro clips out videoDuration explicitDuration n hn hok c hc
    unfold validate at hok
    split at hok
    · exact absurd hok (by simp)
    · obtain ⟨a, ha⟩ := validateEach_ok_mem hok c hc
      rw [validateOne_ok_eq ha]
      exact clampClip_bounds hn a
  · intro clips videoDuration hne
    unfold validate
    rw [if_neg hne]
    exact validateEach_none_eq videoDuration clips
  · intro clips videoDuration hne
    unfold validateClips
    rw [if_neg hne]
    rfl

theorem c6_clamp_only_in_controller_witness :
    0 ≤ (Clip.mk "v1" "t" 5 10).startTime ∧ (Clip.mk "v1" "t" 5 10).endTime ≤ 600 := by
  refine c6_clamp_only_in_controller.1 [⟨"v1", "t", 5, 10⟩] [⟨"v1", "t", 5, 10⟩]
    600 none 60000 (by norm_num) ?_ ⟨"v1", "t", 5, 10⟩ (by simp)
  norm_num [validate, validateEach, validateOne, clampClip]

/-! ## Final-chunk attempt loop and fallback synthesis —
src/unnamed/part_005, lines 269–299 -/

/-- JavaScript runtime value of a clip time field: a number, or a string
(as produced by `Number.prototype.toFixed`). -/
inductive JsValue
  | num (q : ℚ)
  | str (s : String)
deriving DecidableEq

/-- Clip object as exchanged between the selection and merge pipelines,
with the JS runtime type of its time fields preserved. -/
structure JsClip where
  videoId : String
  transcriptText : String
  startTime : JsValue
  endTime : JsValue
deriving DecidableEq

/-- JavaScript runtime error thrown by the embedded code. -/
inductive JsError
  | typeError (msg : String)
deriving DecidableEq

/-- Digit rendering of a nonnegative count of hundredths as a two-decimal
string, e.g. `natFixed2 8900 = "89.00"`. -/
def natFixed2 (n : ℕ) : String :=
  Nat.repr (n / 100) ++ "." ++ (if n % 100 < 10 then "0" else "") ++ Nat.repr (n % 100)

/-- String produced by `Number.prototype.toFixed(2)`: sign extracted first,
magnitude rounded to hundredths with ties away from zero (ECMAScript picks
the larger candidate integer), then rendered with two decimals. -/
def toFixed2 (q : ℚ) : String :=
  if q < 0 then "-" ++ natFixed2 (Int.floor ((-q) * 100 + 1/2)).toNat
  else natFixed2 (Int.floor (q * 100 + 1/2)).toNat

theorem floor_intCast_add_half (m : ℤ) : Int.floor ((m : ℚ) + 1/2) = m := by
  have hhalf : Int.floor ((1 : ℚ)/2) = 0 := by
    rw [Int.floor_eq_iff] <;> norm_num
  rw [Int.floor_int_add, hhalf, add_zero]

theorem toFixed2_eval_nonneg (q : ℚ) (m : ℤ) (h0 : 0 ≤ q) (hm : q * 100 = (m : ℚ)) :
    toFixed2 q = natFixed2 m.toNat := by
  rw [toFixed2, if_neg (not_lt.mpr h0), hm, floor_intCast_add_half]

theorem toFixed2_eval_neg (q : ℚ) (m : ℤ) (hq : q < 0) (hm : (-q) * 100 = (m : ℚ)) :
    toFixed2 q = "-" ++ natFixed2 m.toNat := by
  rw [toFixed2, if_pos hq, hm, floor_intCast_add_half]

/-- Assignment to a binding declared with `const` throws a TypeError at
JavaScript runtime.  In part_005 the final-chunk response text
`responseContent` is declared `const` at line 269 and assigned at line 286
inside the retry branch, so executing that branch always throws. -/
def assignToConst {α : Type} (_v : α) : Except JsError α :=
  .error (.typeError "Assignment to constant variable.")

/-- Final-chunk attempt loop of part_005 lines 272–297
(`for (let attempt = 0; attempt < maxAttempts; attempt++)`, with
`maxAttempts = 3`).  `parseAndValidate a` is the combined outcome of the
JSON-array extraction, `JSON.parse` and `validateClips` on the response
text of attempt `a` (`none` when any of them throws); `clips` is the
mutable `let clips = null` variable.  On a failed attempt with
`attempt < maxAttempts - 1` the code performs the retry call and then
`responseContent = retryResult.choices[0].message.content` — an assignment
to the `const` of line 269 — before any further parse; on a failed last
attempt it assigns the hard-coded fallback clip list and the loop ends. -/
def attemptLoopGo (parseAndValidate : ℕ → Option (List JsClip)) (fallback : List JsClip) :
    ℕ → ℕ → Option (List JsClip) → Except JsError (Option (List JsClip))
  | _, 0, clips => .ok clips
  | attempt, fuel + 1, clips =>
    match parseAndValidate attempt with
    | some parsed => .ok (some parsed)
    | none =>
      if attempt < 3 - 1 then
        match assignToConst "retryResponseContent" with
        | .error e => .error e
        | .ok _ => attemptLoopGo parseAndValidate fallback (attempt + 1) fuel clips
      else
        .ok (some fallback)

/-- Value of `finalClips` (or the propagated exception) after the
final-chunk processing of part_005 lines 271–299. -/
def finalChunkClips (parseAndValidate : ℕ → Option (List JsClip))
    (fallback : List JsClip) : Except JsError (Option (List JsClip)) :=
  attemptLoopGo parseAndValidate fallback 0 3 none

/-- Shape of the HTTP response the part_005 `generateClips` handler sends
for a request that reaches the final chunk. -/
structure HandlerResponse where
  status : ℕ
  success : Bool
deriving DecidableEq

/-- Outcome of the part_005 handler around the final-chunk stage: a thrown
JS error reaches the outer catch (lines 321–328) and yields a 500
failure response; otherwise the handler responds 200 (lines 314–320). -/
def generateClipsFinalResponse (parseAndValidate : ℕ → Option (List JsClip))
    (fallback : List JsClip) : HandlerResponse :=
  match finalChunkClips parseAndValidate fallback with
  | .error _ => { status := 500, success := false }
  | .ok _ => { status := 200, success := true }

/-- Fallback clip list constructed at part_005 lines 289–294 when the last
attempt fails: `videoId` from the first transcript, text of the last
end-segment (or the literal fallback text), and the hard-coded time range
`(videoDuration - 11).toFixed(2)` … `videoDuration.toFixed(2)` — strings,
spanning the last 11 seconds whatever the requested duration, with no
clamping at 0. -/
def fallbackClips (videoId : String) (lastEndText : Option String)
    (videoDuration : ℚ) : List JsClip :=
  [{ videoId := videoId,
     transcriptText := lastEndText.getD "No transcript available",
     startTime := .str (toFixed2 (videoDuration - 11)),
     endTime := .str (toFixed2 videoDuration) }]

/-- C3 (code bug): for a parseable request whose final-chunk response fails
parsing or validation on the first attempt, the part_005 handler does not
degrade to fallback synthesis: the retry branch's assignment to the
`const` `responseContent` throws a TypeError, the outer catch fires, and
the handler returns a hard 500 failure carrying no clip list (the fallback
branch of the loop is unreachable, and no `usedFallback` indication exists
in the response shape). -/
theorem c3_hard_failure_on_first_parse_failure
    (parseAndValidate : ℕ → Option (List JsClip)) (fallback : List JsClip)
    (h : parseAndValidate 0 = none) :
    finalChunkClips parseAndValidate fallback
        = .error (.typeError "Assignment to constant variable.") ∧
    generateClipsFinalResponse parseAndValidate fallback
        = { status := 500, success := false } := by
  have h1 : finalChunkClips parseAndValidate fallback
      = .error (.typeError "Assignment to constant variable.") := by
    unfold finalChunkClips
    rw [attemptLoopGo, h]
    rfl
  refine ⟨h1, ?_⟩
  unfold generateClipsFinalResponse
  rw [h1]

theorem c3_hard_failure_witness :
    finalChunkClips (fun _ => none) []
        = .error (.typeError "Assignment to constant variable.") ∧
    generateClipsFinalResponse (fun _ => none) []
        = { status := 500, success := false } :=
  c3_hard_failure_on_first_parse_failure (fun _ => none) [] rfl

/-- C2 (code bug): at the failing input — an explicit request for 8 seconds
against a 100-second source, with every final-chunk attempt failing
validation — the fallback constructed by part_005 lines 289–294 spans
`[89.00, 100.00]`: 11 seconds, not the requested 8; for a 5-second source
its start time is the unclamped `-6.00`; and the constructed fallback is
never even returned, because the attempt loop throws a TypeError before
reaching it. -/
theorem c2_fallback_diverges :
    (fallbackClips "v1" none 100
      = [{ videoId := "v1", transcriptText := "No transcript available",
           startTime := .str "89.00", endTime := .str "100.00" }]) ∧
    ((100 : ℚ) - ((100 : ℚ) - 11) = 11 ∧ ¬ ((100 : ℚ) - ((100 : ℚ) - 11) = 8)) ∧
    (toFixed2 ((5 : ℚ) - 11) = "-6.00" ∧ (5 : ℚ) - 11 < 0) ∧
    finalChunkClips (fun _ => none) (fallbackClips "v1" none 100)
      = .error (.typeError "Assignment to constant variable.") := by
  have e1 : toFixed2 ((100 : ℚ) - 11) = "89.00" := by
    rw [toFixed2_eval_nonneg ((100 : ℚ) - 11) 8900 (by norm_num) (by norm_num)]
    decide
  have e2 : toFixed2 (100 : ℚ) = "100.00" := by
    rw [toFixed2_eval_nonneg (100 : ℚ) 10000 (by norm_num) (by norm_num)]
    decide
  have e3 : toFixed2 ((5 : ℚ) - 11) = "-6.00" := by
    rw [toFixed2_eval_neg ((5 : ℚ) - 11) 600 (by norm_num) (by norm_num)]
    decide
  refine ⟨?_, ⟨by norm_num, by norm_num⟩, ⟨e3, by norm_num⟩, ?_⟩
  · simp [fallbackClips, e1, e2]
  · exact (c3_hard_failure_on_first_parse_failure (fun _ => none)
      (fallbackClips "v1" none 100) rfl).1

/-! ## PathResolver — src/controllers/clipsMergeController/videoMergeClips.js,
lines 65–106 -/

/-- Characters split on `/` separators; an empty run between two slashes
yields an empty component, as in JS `split('/')`. -/
def splitSlashGo (cur : List Char) : List Char → List (List Char)
  | [] => [cur.reverse]
  | c :: cs =>
      if c = '/' then cur.reverse :: splitSlashGo [] cs
      else splitSlashGo (c :: cur) cs

def splitSlash (s : String) : List String :=
  (splitSlashGo [] s.data).map (fun l => String.mk l)

/-- JS `String.prototype.startsWith`, evaluated on the character lists. -/
def strStartsWith (s pre : String) : Bool :=
  s.data.take pre.data.length == pre.data

/-- `filePath.replace(/\\/g, '/')` (videoMergeClips.js line 70). -/
def replaceBackslashes (s : String) : String :=
  String.mk (s.data.map (fun c => if c = '\\' then '/' else c))

/-- Node `path.basename` on a POSIX path: the last nonempty component,
trailing slashes ignored. -/
def posixBasename (p : String) : String :=
  (((splitSlash p).filter (fun s => s != "")).getLast?).getD ""

/-- Node POSIX `path.normalize` segment resolution: drop empty and `.`
segments and resolve `..` against preceding real segments (an absolute
path cannot climb above the root). -/
def normParts (isAbs : Bool) (parts : List String) : List String :=
  parts.foldl
    (fun acc seg =>
      if seg = "" ∨ seg = "." then acc
      else if seg = ".." then
        match acc.getLast? with
        | some prev => if prev = ".." then acc ++ [".."] else acc.dropLast
        | none => if isAbs then [] else [".."]
      else acc ++ [seg])
    []

/-- Node POSIX `path.normalize` (invoked at videoMergeClips.js line 82) on
slash-separated paths.  In particular the double slash of a URL scheme is
collapsed: `normalize("https://h/f") = "https:/h/f"`.  (Trailing-slash
preservation is irrelevant to the candidates built here, which never end
in a slash.) -/
def posixNormalize (p : String) : String :=
  if p = "" then "."
  else
    let isAbs := strStartsWith p "/"
    let parts := normParts (isAbs = true) (splitSlash p)
    let core := String.intercalate "/" parts
    if isAbs = true then "/" ++ core
    else if core = "" then "." else core

/-- Node `path.join(a, b)` for the nonempty arguments used here:
concatenation with a separator, then normalization. -/
def posixJoin (a b : String) : String :=
  posixNormalize (a ++ "/" ++ b)

/-- `resolveVideoPath(filePath)` (videoMergeClips.js lines 65–106),
abstracted over the filesystem (`fs.existsSync`) and the uploads base
directory (`process.env.UPLOADS_DIR || '/app/backend/uploads'`).  Four
candidate paths are built; each is normalized and the first existing one
is returned; if none exists the function throws an error listing the
(un-normalized) candidates. -/
def resolveVideoPath (fsExists : String → Bool) (uploadsBase : String)
    (filePath : String) : Except (List String) String :=
  let filename := posixBasename filePath
  let normalizedFilePath := replaceBackslashes filePath
  let possiblePaths : List String :=
    [normalizedFilePath,
     posixJoin uploadsBase filename,
     posixJoin uploadsBase
       (if strStartsWith normalizedFilePath "uploads/" = true then
          normalizedFilePath.drop 8 else filename),
     posixJoin uploadsBase
       (if strStartsWith normalizedFilePath "backend/uploads/" = true then
          normalizedFilePath.drop 16 else filename)]
  match findFirst (fun p => fsExists (posixNormalize p) = true) possiblePaths with
  | some p => .ok (posixNormalize p)
  | none => .error possiblePaths

theorem c9_url_counterexample :
    resolveVideoPath (fun _ => false) "/app/backend/uploads"
        "https://cdn.example.com/v.mp4"
      = .error ["https://cdn.example.com/v.mp4", "/app/backend/uploads/v.mp4",
                "/app/backend/uploads/v.mp4", "/app/backend/uploads/v.mp4"] := by
  rfl

/-- C9 amended: `resolveVideoPath` has no special case for remote URLs.  A
URL-shaped stored reference is normalized — collapsing the `//` of the
scheme — and checked against the local filesystem like any other
candidate, so the resolver can only return one of its normalized candidate
paths, never the URL unchanged, and when no candidate exists on disk it
fails with an error listing all four candidates. -/
theorem c9_url_not_special_cased (fsExists : String → Bool) :
    (∀ p, resolveVideoPath fsExists "/app/backend/uploads"
        "https://cdn.example.com/v.mp4" = .ok p →
      ((p = "https:/cdn.example.com/v.mp4" ∨ p = "/app/backend/uploads/v.mp4") ∧
        ¬ p = "https://cdn.example.com/v.mp4" ∧ fsExists p = true)) ∧
    ((∀ q, fsExists q = false) →
      resolveVideoPath fsExists "/app/backend/uploads" "https://cdn.example.com/v.mp4"
        = .error ["https://cdn.example.com/v.mp4", "/app/backend/uploads/v.mp4",
                  "/app/backend/uploads/v.mp4", "/app/backend/uploads/v.mp4"]) := by
  have e1 : posixNormalize "https://cdn.example.com/v.mp4"
      = "https:/cdn.example.com/v.mp4" := by decide
  have e2 : posixNormalize "/app/backend/uploads/v.mp4"
      = "/app/backend/uploads/v.mp4" := by decide
  have hshape : resolveVideoPath fsExists "/app/backend/uploads"
      "https://cdn.example.com/v.mp4" =
    (match findFirst (fun p => fsExists (posixNormalize p) = true)
        ["https://cdn.example.com/v.mp4", "/app/backend/uploads/v.mp4",
         "/app/backend/uploads/v.mp4", "/app/backend/uploads/v.mp4"] with
     | some p => .ok (posixNormalize p)
     | none => .error ["https://cdn.example.com/v.mp4", "/app/backend/uploads/v.mp4",
                       "/app/backend/uploads/v.mp4", "/app/backend/uploads/v.mp4"]) := by
    rfl
  constructor
  · intro p hp
    rw [hshape] at hp
    by_cases h1 : fsExists "https:/cdn.example.com/v.mp4" = true
    · rw [show findFirst (fun p => fsExists (posixNormalize p) = true)
          ["https://cdn.example.com/v.mp4", "/app/backend/uploads/v.mp4",
           "/app/backend/uploads/v.mp4", "/app/backend/uploads/v.mp4"]
          = some "https://cdn.example.com/v.mp4" from by
            rw [findFirst, if_pos (by rw [e1]; exact h1)]] at hp
      injection hp with hp
      rw [← hp, e1]
      exact ⟨Or.inl rfl, by decide, h1⟩
    · by_cases h2 : fsExists "/app/backend/uploads/v.mp4" = true
      · rw [show findFirst (fun p => fsExists (posixNormalize p) = true)
            ["https://cdn.example.com/v.mp4", "/app/backend/uploads/v.mp4",
             "/app/backend/uploads/v.mp4", "/app/backend/uploads/v.mp4"]
            = some "/app/backend/uploads/v.mp4" from by
              rw [findFirst, if_neg (by rw [e1]; exact h1),
                  findFirst, if_pos (by rw [e2]; exact h2)]] at hp
        injection hp with hp
        rw [← hp, e2]
        exact ⟨Or.inr rfl, by decide, h2⟩
      · rw [show findFirst (fun p => fsExists (posixNormalize p) = true)
            ["https://cdn.example.com/v.mp4", "/app/backend/uploads/v.mp4",
             "/app/backend/uploads/v.mp4", "/app/backend/uploads/v.mp4"]
            = none from by
              rw [findFirst, if_neg (by rw [e1]; exact h1),
                  findFirst, if_neg (by rw [e2]; exact h2),
                  findFirst, if_neg (by rw [e2]; exact h2),
                  findFirst, if_neg (by rw [e2]; exact h2), findFirst]] at hp
        exact absurd hp (by simp)
  · intro hnone
    rw [hshape]
    rw [show findFirst (fun p => fsExists (posixNormalize p) = true)
        ["https://cdn.example.com/v.mp4", "/app/backend/uploads/v.mp4",
         "/app/backend/uploads/v.mp4", "/app/backend/uploads/v.mp4"]
        = none from by
          rw [findFirst, if_neg (by rw [e1, hnone]; simp),
              findFirst, if_neg (by rw [e2, hnone]; simp),
              findFirst, if_neg (by rw [e2, hnone]; simp),
              findFirst, if_neg (by rw [e2, hnone]; simp), findFirst]]

theorem c9_url_not_special_cased_witness :
    (("/app/backend/uploads/v.mp4" = "https:/cdn.example.com/v.mp4" ∨
      "/app/backend/uploads/v.mp4" = "/app/backend/uploads/v.mp4") ∧
     ¬ ("/app/backend/uploads/v.mp4" = "https://cdn.example.com/v.mp4") ∧
     (fun p => p == "/app/backend/uploads/v.mp4") "/app/backend/uploads/v.mp4" = true) :=
  (c9_url_not_special_cased (fun p => p == "/app/backend/uploads/v.mp4")).1
    "/app/backend/uploads/v.mp4" (by rfl)

/-! ## MergeOrchestrator — src/controllers/clipsMergeController/videoMergeClips.js,
lines 124–250 -/

/-- Stored video record as looked up by `Video.findById`. -/
structure VideoRecord where
  videoUrl : String
  title : String
  thumbnailUrl : String
deriving DecidableEq

/-- Environment of one merge job: the database and filesystem views plus
the outcome of each external effect, in the order the job performs them. -/
structure MergeEnv where
  lookup : String → Option VideoRecord
  fsExists : String → Bool
  uploadsBase : String
  ffmpegOk : Bool
  statSize : ℕ
  probeDuration : Option ℚ
  thumbGenOk : Bool
  thumbUploadOk : Bool
  thumbUrl : String
  videoUploadOk : Bool
  videoUrl : String
  saveOk : Bool

/-- Typed rendering of the errors thrown or rejected by `videoMergeClips`. -/
inductive MergeErr
  | noClips
  | videoNotFound (videoId : String)
  | pathNotResolved (tried : List String)
  | fileNotFound (path : String)
  | timesNotNumbers (videoId : String)
  | invalidDuration (videoId : String)
  | mergeFailed
  | emptyOutput
  | probeFailed
  | zeroDuration
  | uploadFailed
  | saveFailed
deriving DecidableEq

/-- Observable side effects of a merge job, in execution order. -/
inductive MergeEvent
  | mkTempDir
  | mkOutputDir
  | runFfmpeg
  | uploadThumb
  | removeThumb
  | uploadVideo
  | saveRecord
  | removeTempDir
  | removeOutput
deriving DecidableEq

/-- Entry of `clipDetails` (videoMergeClips.js lines 153–162). -/
structure ClipDetail where
  path : String
  startTime : ℚ
  endTime : ℚ
  duration : ℚ
  videoId : String
  thumbnail : String
deriving DecidableEq

/-- Per-clip work of the `Promise.all(clips.map(...))` (videoMergeClips.js
lines 137–163): record lookup, path resolution, existence re-check, the
`typeof` number check on both times, then the positive-duration check, in
that order; the first failure rejects the whole job. -/
def processClip (env : MergeEnv) (clip : JsClip) : Except MergeErr ClipDetail :=
  match env.lookup clip.videoId with
  | none => .error (.videoNotFound clip.videoId)
  | some video =>
    match resolveVideoPath env.fsExists env.uploadsBase video.videoUrl with
    | .error tried => .error (.pathNotResolved tried)
    | .ok resolvedPath =>
      if env.fsExists resolvedPath = false then .error (.fileNotFound resolvedPath)
      else
        match clip.startTime, clip.endTime with
        | .num s, .num e =>
          if e - s ≤ 0 then .error (.invalidDuration clip.videoId)
          else .ok { path := resolvedPath, startTime := s, endTime := e,
                     duration := e - s, videoId := clip.videoId,
                     thumbnail := video.thumbnailUrl }
        | _, _ => .error (.timesNotNumbers clip.videoId)

/-- Sequential composition of the per-clip work over the clips array; the
first rejection wins, as with `Promise.all` in source order. -/
def processClips (env : MergeEnv) : List JsClip → Except MergeErr (List ClipDetail)
  | [] => .ok []
  | c :: cs =>
    match processClip env c with
    | .error e => .error e
    | .ok d =>
      match processClips env cs with
      | .error e => .error e
      | .ok ds => .ok (d :: ds)

/-- Resolved value of a successful merge job (videoMergeClips.js line 233). -/
structure MergeOk where
  videoUrl : String
  thumbnailUrl : String
  duration : ℚ
deriving DecidableEq

/-- `videoMergeClips(clips, user, videoInfo)` (lines 124–250), with every
external effect recorded in order in the returned event list.  The
30-minute timeout kills the subprocess, which surfaces through the same
ffmpeg error event as any other subprocess failure (`ffmpegOk = false`).
Thumbnail generation/upload failure is non-fatal: the first clip's stored
thumbnail is used instead.  Note that `fs.rmSync(tempDir)` and
`fs.unlinkSync(outputPath)` (lines 230–231) execute only at the end of the
fully successful path. -/
def videoMergeClips (env : MergeEnv) (clips : List JsClip) :
    Except MergeErr MergeOk × List MergeEvent :=
  if clips = [] then (.error .noClips, [])
  else
    let ev0 : List MergeEvent := [.mkTempDir, .mkOutputDir]
    match processClips env clips with
    | .error e => (.error e, ev0)
    | .ok details =>
      let ev1 := ev0 ++ [MergeEvent.runFfmpeg]
      if env.ffmpegOk = false then (.error .mergeFailed, ev1)
      else if env.statSize = 0 then (.error .emptyOutput, ev1)
      else
        match env.probeDuration with
        | none => (.error .probeFailed, ev1)
        | some actualDuration =>
          if actualDuration ≤ 0 then (.error .zeroDuration, ev1)
          else
            let thumbnailUrl :=
              if env.thumbGenOk ∧ env.thumbUploadOk then env.thumbUrl
              else ((details.head?).map (fun d => d.thumbnail)).getD ""
            let ev2 := ev1 ++
              (if env.thumbGenOk then [MergeEvent.uploadThumb, MergeEvent.removeThumb]
               else []) ++ [MergeEvent.uploadVideo]
            if env.videoUploadOk = false then (.error .uploadFailed, ev2)
            else
              let ev3 := ev2 ++ [MergeEvent.saveRecord]
              if env.saveOk = false then (.error .saveFailed, ev3)
              else
                (.ok { videoUrl := env.videoUrl, thumbnailUrl := thumbnailUrl,
                       duration := actualDuration },
                 ev3 ++ [MergeEvent.removeTempDir, MergeEvent.removeOutput])

theorem findFirst_some {α : Type} (p : α → Prop) [DecidablePred p] :
    ∀ {l : List α} {a : α}, findFirst p l = some a → p a := by
  intro l
  induction l with
  | nil =>
    intro a h
    simp [findFirst] at h
  | cons c cs ih =>
    intro a h
    rw [findFirst] at h
    split at h
    · injection h with h
      subst h
      assumption
    · exact ih h

theorem resolveVideoPath_ok_exists {fsExists : String → Bool} {uploadsBase : String}
    {filePath p : String}
    (h : resolveVideoPath fsExists uploadsBase filePath = .ok p) :
    fsExists p = true := by
  simp only [resolveVideoPath] at h
  split at h
  · rename_i q hq
    injection h with h
    subst h
    exact findFirst_some (fun x : String => fsExists (posixNormalize x) = true) hq
  · exact absurd h (by simp)

/-- Environment for the C7 counterexample: the temp directory has been
created, but the first clip's video record is missing, so the job fails in
the resolution phase. -/
def c7FailEnv : MergeEnv :=
  { lookup := fun _ => none,
    fsExists := fun _ => true,
    uploadsBase := "/app/backend/uploads",
    ffmpegOk := true, statSize := 100, probeDuration := some 10,
    thumbGenOk := true, thumbUploadOk := true, thumbUrl := "tu",
    videoUploadOk := true, videoUrl := "vu", saveOk := true }

/-- Well-formed numeric clip used by the merge-side theorems. -/
def numClip : JsClip :=
  { videoId := "id1", transcriptText := "x", startTime := .num 0, endTime := .num 5 }

theorem c7_no_cleanup_on_failure_counterexample :
    MergeEvent.removeTempDir ∉ (videoMergeClips c7FailEnv [numClip]).2 ∧
    MergeEvent.mkTempDir ∈ (videoMergeClips c7FailEnv [numClip]).2 ∧
    (videoMergeClips c7FailEnv [numClip]).1 = .error (.videoNotFound "id1") := by
  decide

/-- C7 amended: the merge job's temp directory and local output file are
removed only on the fully successful path — cleanup runs exactly when the
job resolves successfully, and every failure path (resolution failure,
subprocess error or timeout, verification failure, upload failure, record
failure) exits without removing them. -/
theorem c7_cleanup_only_on_success (env : MergeEnv) (clips : List JsClip) :
    ((MergeEvent.removeTempDir ∈ (videoMergeClips env clips).2) ↔
      (∃ ok, (videoMergeClips env clips).1 = .ok ok)) ∧
    ((MergeEvent.removeOutput ∈ (videoMergeClips env clips).2) ↔
      (∃ ok, (videoMergeClips env clips).1 = .ok ok)) := by
  cases hg : env.thumbGenOk <;>
  · unfold videoMergeClips
    repeat' split
    all_goals simp [hg]

/-- Fully successful merge environment, used to exercise the success
path. -/
def okEnv : MergeEnv :=
  { lookup := fun _ => some { videoUrl := "v.mp4", title := "t", thumbnailUrl := "th" },
    fsExists := fun _ => true,
    uploadsBase := "/app/backend/uploads",
    ffmpegOk := true, statSize := 100, probeDuration := some 10,
    thumbGenOk := true, thumbUploadOk := true, thumbUrl := "tu",
    videoUploadOk := true, videoUrl := "vu", saveOk := true }

theorem okEnv_run :
    videoMergeClips okEnv [numClip]
      = (.ok { videoUrl := "vu", thumbnailUrl := "tu", duration := 10 },
         [.mkTempDir, .mkOutputDir, .runFfmpeg, .uploadThumb, .removeThumb,
          .uploadVideo, .saveRecord, .removeTempDir, .removeOutput]) := by
  have hd : ¬ ((5 : ℚ) - 0 ≤ 0) := by norm_num
  have hpc : processClip okEnv numClip
      = .ok { path := "v.mp4", startTime := 0, endTime := 5, duration := 5 - 0,
              videoId := "id1", thumbnail := "th" } := by
    simp only [processClip, okEnv, numClip]
    rw [show resolveVideoPath (fun _ => true) "/app/backend/uploads" "v.mp4"
        = .ok "v.mp4" from rfl]
    simp [hd]
  simp only [videoMergeClips, processClips, hpc]
  norm_num [okEnv]

theorem c7_cleanup_only_on_success_witness :
    MergeEvent.removeTempDir ∈ (videoMergeClips okEnv [numClip]).2 :=
  (c7_cleanup_only_on_success okEnv [numClip]).1.mpr
    ⟨{ videoUrl := "vu", thumbnailUrl := "tu", duration := 10 },
     by rw [okEnv_run]⟩

/-- Restriction of an if-guarded event segment under `List.filter`. -/
theorem filter_if_list {α : Type} (p : α → Bool) (c : Prop) [Decidable c] (l : List α) :
    List.filter p (if c then l else []) = if c then List.filter p l else [] :=
  apply_ite (List.filter p) c l []

theorem mem_if_list {α : Type} (a : α) (c : Prop) [Decidable c] (l : List α) :
    (a ∈ if c then l else []) ↔ (c ∧ a ∈ l) := by
  split
  · simp_all
  · simp_all

/-- C8: in every merge job, restricting the event trace to the merged-file
upload and the FinalAsset record write (`finalVideo.save()`, line 228)
yields `[]`, `[uploadVideo]`, or `[uploadVideo, saveRecord]` — the record
write happens at most once and never before the upload; moreover a record
write only happens when the upload succeeded, and a successful job writes
the record exactly once (after its upload). -/
theorem c8_save_after_upload (env : MergeEnv) (clips : List JsClip) :
    (((videoMergeClips env clips).2.filter
        (fun e => e == MergeEvent.uploadVideo || e == MergeEvent.saveRecord)) = [] ∨
     ((videoMergeClips env clips).2.filter
        (fun e => e == MergeEvent.uploadVideo || e == MergeEvent.saveRecord))
          = [MergeEvent.uploadVideo] ∨
     ((videoMergeClips env clips).2.filter
        (fun e => e == MergeEvent.uploadVideo || e == MergeEvent.saveRecord))
          = [MergeEvent.uploadVideo, MergeEvent.saveRecord]) ∧
    (MergeEvent.saveRecord ∈ (videoMergeClips env clips).2 →
      env.videoUploadOk = true) ∧
    ((∃ ok, (videoMergeClips env clips).1 = .ok ok) →
      ((videoMergeClips env clips).2.filter
        (fun e => e == MergeEvent.uploadVideo || e == MergeEvent.saveRecord))
          = [MergeEvent.uploadVideo, MergeEvent.saveRecord]) := by
  unfold videoMergeClips
  repeat' split
  all_goals
    simp_all [List.filter_append, filter_if_list, mem_if_list, List.mem_append]

theorem c8_save_after_upload_witness :
    ((videoMergeClips okEnv [numClip]).2.filter
      (fun e => e == MergeEvent.uploadVideo || e == MergeEvent.saveRecord))
        = [MergeEvent.uploadVideo, MergeEvent.saveRecord] :=
  (c8_save_after_upload okEnv [numClip]).2.2
    ⟨{ videoUrl := "vu", thumbnailUrl := "tu", duration := 10 }, by rw [okEnv_run]⟩

/-- C10: the fallback clip synthesized by part_005 carries its times as
`toFixed(2)` strings, while the merge pipeline requires number-typed times;
hence a fallback clip passed unchanged into `videoMergeClips` aborts the
job with the times-must-be-numbers error whenever its video record is
found and its stored path resolves (the checks that run before the type
check). -/
theorem c10_fallback_rejected_by_merge (env : MergeEnv) (videoId : String)
    (lastEndText : Option String) (videoDuration : ℚ) (video : VideoRecord)
    (hlookup : env.lookup videoId = some video)
    (hresolve : ∃ p,
      resolveVideoPath env.fsExists env.uploadsBase video.videoUrl = .ok p) :
    (videoMergeClips env (fallbackClips videoId lastEndText videoDuration)).1
      = .error (.timesNotNumbers videoId) := by
  obtain ⟨p, hp⟩ := hresolve
  have hfs := resolveVideoPath_ok_exists hp
  have hpc : processClip env
      { videoId := videoId,
        transcriptText := lastEndText.getD "No transcript available",
        startTime := .str (toFixed2 (videoDuration - 11)),
        endTime := .str (toFixed2 videoDuration) }
      = .error (.timesNotNumbers videoId) := by
    unfold processClip
    rw [hlookup]
    dsimp only
    rw [hp]
    dsimp only
    rw [if_neg (by rw [hfs]; simp)]
  have hlist : processClips env (fallbackClips videoId lastEndText videoDuration)
      = .error (.timesNotNumbers videoId) := by
    unfold fallbackClips processClips
    rw [hpc]
  unfold videoMergeClips
  rw [if_neg (by simp [fallbackClips]), hlist]

theorem c10_fallback_rejected_by_merge_witness :
    (videoMergeClips okEnv (fallbackClips "id1" none 100)).1
      = .error (.timesNotNumbers "id1") :=
  c10_fallback_rejected_by_merge okEnv "id1" none 100
    { videoUrl := "v.mp4", title := "t", thumbnailUrl := "th" } rfl
    ⟨"v.mp4", by rfl⟩
